import Mathlib

/-!
Verification of `Diff-Transformer/diff/multihead_flashdiff_1.py`.

Modelling conventions:
* A torch tensor is a shape (list of dimension sizes) together with flat
  row-major data, `Nat → ℚ`.  `view`/`reshape` on a contiguous tensor keep the
  flat data and only relabel the shape; they fail (PyTorch raises) when the
  element counts differ, so they return `Option`.
* Numeric values are exact rationals; the exponential (`math.exp`,
  `torch.exp`) is an external library function and is passed in as an
  abstract `exp : ℚ → ℚ`, with its mathematical properties (strict
  monotonicity, positivity, `exp 0 = 1`) taken as hypotheses where a claim
  needs them.
* The external collaborators the file imports (`ColumnParallelLinear`,
  `RowParallelLinear`, `apply_rotary_emb`, `flash_attn_func`, `RMSNorm`)
  are black-box primitives, bundled in a `Prims` structure; theorems that need
  their shape contracts state them as hypotheses.
-/

namespace DiffAttn

/-- A torch tensor: shape plus flat row-major data. -/
structure Tensor where
  shape : List ℕ
  data : ℕ → ℚ

namespace Tensor

/-- Model of `t.view(s)` / `t.reshape(s)` on a contiguous tensor: relabel the shape,
keep the flat data; PyTorch raises unless the element counts agree. -/
def view (t : Tensor) (s : List ℕ) : Option Tensor :=
  if s.prod = t.shape.prod then some ⟨s, t.data⟩ else none

/-- Scalar broadcast multiplication `c * t` (e.g. `lambda_full * attn2`). -/
def scale (t : Tensor) (c : ℚ) : Tensor :=
  ⟨t.shape, fun i => c * t.data i⟩

/-- Elementwise subtraction of same-shaped tensors (`attn1 - ...`). -/
def sub (a b : Tensor) : Tensor :=
  ⟨a.shape, fun i => a.data i - b.data i⟩

/-- Model of `t[:, :, :, j]` on a rank-5 tensor: drop dimension 3 at index `j`. -/
def selectDim3 (t : Tensor) (j : ℕ) : Tensor :=
  match t.shape with
  | [a, b, c, e, f] =>
    ⟨[a, b, c, f], fun idx =>
      let i5 := idx % f
      let r1 := idx / f
      let i4 := r1 % c
      let r2 := r1 / c
      let i3 := r2 % b
      let i2 := r2 / b
      t.data ((((i2 * b + i3) * c + i4) * e + j) * f + i5)⟩
  | _ => ⟨t.shape, t.data⟩

/-- Element access of a rank-4 tensor at indices `(b, h, s, d)` through the
row-major layout. -/
def get4 (t : Tensor) (b h s d : ℕ) : ℚ :=
  match t.shape with
  | [_, hh, ss, dd] => t.data (((b * hh + h) * ss + s) * dd + d)
  | _ => 0

end Tensor

/-- Model of `repeat_kv(x, n_rep)`: broadcast each kv head across `n_rep` consecutive
heads via `x[:, :, None, :, :].expand(bs, n_kv_heads, n_rep, slen, head_dim)
.reshape(bs, n_kv_heads * n_rep, slen, head_dim)`; tuple-unpacking `x.shape`
fails unless the rank is 4. -/
def repeat_kv (x : Tensor) (n_rep : ℕ) : Option Tensor :=
  match x.shape with
  | [bs, n_kv_heads, slen, head_dim] =>
    if n_rep = 1 then some x
    else some
      ⟨[bs, n_kv_heads * n_rep, slen, head_dim], fun idx =>
        let d := idx % head_dim
        let r1 := idx / head_dim
        let s := r1 % slen
        let r2 := r1 / slen
        let h := r2 % (n_kv_heads * n_rep)
        let b := r2 / (n_kv_heads * n_rep)
        x.data (((b * n_kv_heads + h / n_rep) * slen + s) * head_dim + d)⟩
  | _ => none

/-- Model of `lambda_init_fn(depth) = 0.8 - 0.6 * math.exp(-0.3 * depth)`,
with the
library exponential passed in abstractly. -/
def lambda_init_fn (exp : ℚ → ℚ) (depth : ℕ) : ℚ :=
  0.8 - 0.6 * exp (-0.3 * depth)

/-- The fields the layer reads from the global `args` object. -/
structure Args where
  model_parallel_size : ℕ
  decoder_kv_attention_heads : Option ℕ

/-- The state `MultiheadFlashDiff1.__init__` stores on `self` (the external
projection/normalization modules live in `Prims`; `self.scaling`, an
irrational float, is computed but never read by the layer and is omitted). -/
structure DiffState where
  embed_dim : ℕ
  num_heads : ℕ
  num_kv_heads : ℕ
  n_rep : ℕ
  head_dim : ℕ
  lambda_init : ℚ
  lambda_q1 : ℕ → ℚ
  lambda_k1 : ℕ → ℚ
  lambda_q2 : ℕ → ℚ
  lambda_k2 : ℕ → ℚ

/-- Model of `self.num_kv_heads = args.decoder_kv_attention_heads //
args.model_parallel_size if args.decoder_kv_attention_heads is not None else
num_heads // args.model_parallel_size`. -/
def kvHeads (args : Args) (num_heads : ℕ) : ℕ :=
  match args.decoder_kv_attention_heads with
  | some d => d / args.model_parallel_size
  | none => num_heads / args.model_parallel_size

/-- Model of `MultiheadFlashDiff1.__init__`.  The four lambda vectors are drawn from
an external RNG and passed in; `exp` is the library exponential.  The
constructor contains no validation: the only ways it can fail are Python
`ZeroDivisionError`s, in source order from `num_heads //
args.model_parallel_size` (line 57), `self.num_heads //
self.num_kv_heads` (line 58), `embed_dim // num_heads` (line 59),
`self.head_dim ** -0.5` when `head_dim == 0` (line 60: a zero float
raised to a negative power), and the `embed_dim // self.n_rep` width of
`k_proj`/`v_proj` (line 64). -/
def init (args : Args) (embed_dim depth num_heads : ℕ)
    (lq1 lk1 lq2 lk2 : ℕ → ℚ) (exp : ℚ → ℚ) : Option DiffState :=
  if args.model_parallel_size = 0 then none
  else if kvHeads args num_heads = 0 then none
  else if num_heads = 0 then none
  else if embed_dim / num_heads / 2 = 0 then none
  else if num_heads / args.model_parallel_size / kvHeads args num_heads = 0
    then none
  else some
    { embed_dim := embed_dim
      num_heads := num_heads / args.model_parallel_size
      num_kv_heads := kvHeads args num_heads
      n_rep := num_heads / args.model_parallel_size / kvHeads args num_heads
      head_dim := embed_dim / num_heads / 2
      lambda_init := lambda_init_fn exp depth
      lambda_q1 := lq1
      lambda_k1 := lk1
      lambda_q2 := lq2
      lambda_k2 := lk2 }

/-- The external primitives `forward` calls: the four (possibly sharded)
linear projections, `apply_rotary_emb`, `flash_attn_func`, the `RMSNorm`
instance `self.subln`, and `torch.exp`. -/
structure Prims where
  q_proj : Tensor → Tensor
  k_proj : Tensor → Tensor
  v_proj : Tensor → Tensor
  out_proj : Tensor → Tensor
  rotary : Tensor → Tensor × Tensor → Bool → Tensor
  flash_attn : Tensor → Tensor → Tensor → Bool → Tensor
  subln : Tensor → Tensor
  exp : ℚ → ℚ

/-- Model of `src_len = tgt_len` (line 83). -/
def srcLenOf (tgt_len : ℕ) : ℕ := tgt_len

/-- Model of `offset = src_len - tgt_len` (line 96; Python subtraction of equal
naturals, hence modelled by truncated subtraction without loss). -/
def offsetOf (src_len tgt_len : ℕ) : ℕ := src_len - tgt_len

/-- Model of `torch.sum(a * b, dim=-1)` for two `head_dim`-vectors: the dot product. -/
def dotProd (n : ℕ) (a b : ℕ → ℚ) : ℚ :=
  ∑ i in Finset.range n, a i * b i

/-- Model of `lambda_1 = torch.exp(torch.sum(self.lambda_q1 * self.lambda_k1,
dim=-1).float()).type_as(q)` (the float round trip is the identity here). -/
def lambda1 (s : DiffState) (exp : ℚ → ℚ) : ℚ :=
  exp (dotProd s.head_dim s.lambda_q1 s.lambda_k1)

/-- Model of `lambda_2 = torch.exp(torch.sum(self.lambda_q2 * self.lambda_k2,
dim=-1).float()).type_as(q)`. -/
def lambda2 (s : DiffState) (exp : ℚ → ℚ) : ℚ :=
  exp (dotProd s.head_dim s.lambda_q2 s.lambda_k2)

/-- Model of `lambda_full = lambda_1 - lambda_2 + self.lambda_init`. -/
def lambdaFull (s : DiffState) (exp : ℚ → ℚ) : ℚ :=
  lambda1 s exp - lambda2 s exp + s.lambda_init

/-- Model of `attn = attn1 - lambda_full * attn2`. -/
def combineStep (s : DiffState) (exp : ℚ → ℚ) (attn1 attn2 : Tensor) : Tensor :=
  attn1.sub (attn2.scale (lambdaFull s exp))

/-- Model of `attn = attn * (1 - self.lambda_init)`. -/
def rescaleStep (s : DiffState) (t : Tensor) : Tensor :=
  t.scale (1 - s.lambda_init)

/-- Model of `MultiheadFlashDiff1.forward(x, rel_pos, attn_mask=None)`,
line for
line; `attn_mask` is accepted and never used.  Tuple-unpacking `x.size()`
fails unless the rank is 3; each `view`/`reshape` fails on an element-count
mismatch. -/
def forward (s : DiffState) (p : Prims) (x : Tensor)
    (rel_pos : Tensor × Tensor) (attn_mask : Option Tensor) : Option Tensor :=
  match x.shape with
  | [bsz, tgt_len, _embed_dim] =>
    let src_len := srcLenOf tgt_len
    let q := p.q_proj x
    let k := p.k_proj x
    let v := p.v_proj x
    (q.view [bsz, tgt_len, 2 * s.num_heads, s.head_dim]).bind fun q =>
    (k.view [bsz, src_len, 2 * s.num_kv_heads, s.head_dim]).bind fun k =>
    (v.view [bsz, src_len, s.num_kv_heads, 2 * s.head_dim]).bind fun v =>
    let q := p.rotary q rel_pos true
    let k := p.rotary k rel_pos true
    let _offset := offsetOf src_len tgt_len
    (q.view [bsz, tgt_len, s.num_heads, 2, s.head_dim]).bind fun q =>
    (k.view [bsz, src_len, s.num_kv_heads, 2, s.head_dim]).bind fun k =>
    let q1 := q.selectDim3 0
    let q2 := q.selectDim3 1
    let k1 := k.selectDim3 0
    let k2 := k.selectDim3 1
    let attn1 := p.flash_attn q1 k1 v true
    let attn2 := p.flash_attn q2 k2 v true
    let attn := combineStep s p.exp attn1 attn2
    let attn := p.subln attn
    let attn := rescaleStep s attn
    (attn.view [bsz, tgt_len, s.num_heads * 2 * s.head_dim]).bind fun attn =>
    some (p.out_proj attn)
  | _ => none

/-- Variant of `forward` with the dead bindings removed: `src_len` replaced by
`tgt_len` everywhere and no `offset` computed.  Comparing `forward` against
this variant shows the layer is pure self-attention over one shared
sequence length. -/
def forwardNoOffset (s : DiffState) (p : Prims) (x : Tensor)
    (rel_pos : Tensor × Tensor) (attn_mask : Option Tensor) : Option Tensor :=
  match x.shape with
  | [bsz, tgt_len, _embed_dim] =>
    let q := p.q_proj x
    let k := p.k_proj x
    let v := p.v_proj x
    (q.view [bsz, tgt_len, 2 * s.num_heads, s.head_dim]).bind fun q =>
    (k.view [bsz, tgt_len, 2 * s.num_kv_heads, s.head_dim]).bind fun k =>
    (v.view [bsz, tgt_len, s.num_kv_heads, 2 * s.head_dim]).bind fun v =>
    let q := p.rotary q rel_pos true
    let k := p.rotary k rel_pos true
    (q.view [bsz, tgt_len, s.num_heads, 2, s.head_dim]).bind fun q =>
    (k.view [bsz, tgt_len, s.num_kv_heads, 2, s.head_dim]).bind fun k =>
    let q1 := q.selectDim3 0
    let q2 := q.selectDim3 1
    let k1 := k.selectDim3 0
    let k2 := k.selectDim3 1
    let attn1 := p.flash_attn q1 k1 v true
    let attn2 := p.flash_attn q2 k2 v true
    let attn := combineStep s p.exp attn1 attn2
    let attn := p.subln attn
    let attn := rescaleStep s attn
    (attn.view [bsz, tgt_len, s.num_heads * 2 * s.head_dim]).bind fun attn =>
    some (p.out_proj attn)
  | _ => none

/-! Concrete instantiations used by witnesses and counterexamples. -/

/-- A concrete strictly monotone, everywhere positive rational function with
value `1` at `0`: a stand-in for the library exponential when a claim's
hypotheses on `exp` have to be discharged at a concrete input. -/
def expQ (x : ℚ) : ℚ := if x < 0 then 1 / (1 - x) else 1 + x

/-- The all-zero parameter vector. -/
def zeroVec : ℕ → ℚ := fun _ => 0

/-- The all-one parameter vector. -/
def oneVec : ℕ → ℚ := fun _ => 1

/-- A concrete rank-4 tensor with distinct entries. -/
def tNums : Tensor := ⟨[1, 2, 2, 1], fun i => (i : ℚ)⟩

/-- A concrete rank-1 one-entry tensor. -/
def tOne : Tensor := ⟨[1], fun _ => 1⟩

/-- Trivial primitives: every module is (shape-preserving) identity-like and
the exponential slot is the identity function. -/
def prims0 : Prims :=
  { q_proj := fun t => t
    k_proj := fun t => t
    v_proj := fun t => t
    out_proj := fun t => t
    rotary := fun t _ _ => t
    flash_attn := fun q _ _ _ => q
    subln := fun t => t
    exp := fun x => x }

/-- A parameter state whose two lambda-vector pairs coincide. -/
def sEq : DiffState :=
  { embed_dim := 4, num_heads := 1, num_kv_heads := 1, n_rep := 1
    head_dim := 2, lambda_init := 1/5
    lambda_q1 := oneVec, lambda_k1 := oneVec
    lambda_q2 := oneVec, lambda_k2 := oneVec }

/-- State `sEq` with a different `lambda_q1`: same `lambda_init`, different
learned lambda vectors. -/
def sEq' : DiffState :=
  { embed_dim := 4, num_heads := 1, num_kv_heads := 1, n_rep := 1
    head_dim := 2, lambda_init := 1/5
    lambda_q1 := zeroVec, lambda_k1 := oneVec
    lambda_q2 := oneVec, lambda_k2 := oneVec }

/-- A parameter state whose dynamic gate differs from its static bias:
with the identity in the exponential slot, `lambdaFull = 1 - 0 + 1/2`. -/
def sNe : DiffState :=
  { embed_dim := 2, num_heads := 1, num_kv_heads := 1, n_rep := 1
    head_dim := 1, lambda_init := 1/2
    lambda_q1 := oneVec, lambda_k1 := oneVec
    lambda_q2 := zeroVec, lambda_k2 := zeroVec }

/-- The state produced by `init ⟨2, none⟩ 8 0 2 zeroVec zeroVec zeroVec
zeroVec oneExp`: a `model_parallel_size = 2` configuration. -/
def sMP : DiffState :=
  { embed_dim := 8, num_heads := 1, num_kv_heads := 1, n_rep := 1
    head_dim := 2, lambda_init := lambda_init_fn (fun _ => 1) 0
    lambda_q1 := zeroVec, lambda_k1 := zeroVec
    lambda_q2 := zeroVec, lambda_k2 := zeroVec }

/-- The state produced by `init ⟨1, some 1⟩ 2 0 1 ...` with `expQ`:
a minimal valid single-device configuration (`embed_dim = 2`,
`num_heads = num_kv_heads = 1`, `head_dim = 1`). -/
def sW : DiffState :=
  { embed_dim := 2, num_heads := 1, num_kv_heads := 1, n_rep := 1
    head_dim := 1, lambda_init := lambda_init_fn expQ 0
    lambda_q1 := zeroVec, lambda_k1 := zeroVec
    lambda_q2 := zeroVec, lambda_k2 := zeroVec }

/-- A batch-1, length-1 input of width 2 for the `sW` configuration. -/
def xW : Tensor := ⟨[1, 1, 2], fun _ => 0⟩

/-- Primitives matching the shape contracts of the `sW` configuration. -/
def primsW : Prims :=
  { q_proj := fun _ => ⟨[1, 1, 2], fun _ => 0⟩
    k_proj := fun _ => ⟨[1, 1, 2], fun _ => 0⟩
    v_proj := fun _ => ⟨[1, 1, 2], fun _ => 0⟩
    out_proj := fun t => t
    rotary := fun t _ _ => t
    flash_attn := fun _ _ _ _ => ⟨[1, 1, 1, 2], fun _ => 0⟩
    subln := fun t => t
    exp := expQ }

/-! Helper lemmas. -/

theorem expQ_zero : expQ 0 = 1 := by norm_num [expQ]

theorem expQ_pos (x : ℚ) : 0 < expQ x := by
  unfold expQ
  split_ifs with h
  · exact div_pos one_pos (by linarith)
  · linarith [not_lt.mp h]

theorem expQ_strictMono : StrictMono expQ := by
  intro x y hxy
  unfold expQ
  split_ifs with h1 h2 h2
  · have hx : 0 < 1 - x := by linarith
    have hy : 0 < 1 - y := by linarith
    rw [div_lt_div_iff₀ hx hy]
    linarith
  · have hx : 0 < 1 - x := by linarith
    have hlt : 1 / (1 - x) < 1 := by
      rw [div_lt_one hx]; linarith
    linarith [not_lt.mp h2]
  · exact absurd (lt_trans hxy h2) h1
  · linarith

/-- Unpacking a successful construction: the guards that were passed and the
value of every stored field. -/
theorem init_fields (args : Args) (e d n : ℕ) (lq1 lk1 lq2 lk2 : ℕ → ℚ)
    (ex : ℚ → ℚ) (s : DiffState)
    (h : init args e d n lq1 lk1 lq2 lk2 ex = some s) :
    args.model_parallel_size ≠ 0 ∧ n ≠ 0 ∧ kvHeads args n ≠ 0 ∧
    e / n / 2 ≠ 0 ∧
    n / args.model_parallel_size / kvHeads args n ≠ 0 ∧
    s.embed_dim = e ∧ s.num_heads = n / args.model_parallel_size ∧
    s.num_kv_heads = kvHeads args n ∧
    s.n_rep = n / args.model_parallel_size / kvHeads args n ∧
    s.head_dim = e / n / 2 ∧ s.lambda_init = lambda_init_fn ex d ∧
    s.lambda_q1 = lq1 ∧ s.lambda_k1 = lk1 ∧
    s.lambda_q2 = lq2 ∧ s.lambda_k2 = lk2 := by
  unfold init at h
  split_ifs at h with h1 h2 h3 h4 h5
  injection h with h
  subst h
  exact ⟨h1, h3, h2, h4, h5, rfl, rfl, rfl, rfl, rfl, rfl, rfl, rfl, rfl,
    rfl⟩

/-- A `Tensor.view` call succeeds exactly when the element counts agree. -/
theorem view_eq_some (t : Tensor) (s : List ℕ) (h : s.prod = t.shape.prod) :
    t.view s = some ⟨s, t.data⟩ := by
  simp [Tensor.view, h]

/-! Claim theorems. -/

/-- C1 (corrected), counterexample: `embed_dim = 10`, `num_heads = 3`
violates `embed_dim % num_heads == 0`, yet the constructor returns an
instance instead of raising a configuration error. -/
theorem init_accepts_invalid_config :
    10 % 3 ≠ 0 ∧
    (init ⟨1, none⟩ 10 0 3 zeroVec zeroVec zeroVec zeroVec expQ).isSome
      = true :=
  ⟨by decide, rfl⟩

/-- C1 (amended): construction never validates the divisibility
requirements; it can fail only by `ZeroDivisionError`.  Whenever no
division by zero occurs (nonzero `model_parallel_size`, `num_heads`,
derived kv-head count, derived `head_dim = embed_dim // num_heads // 2`
— whose vanishing would make `head_dim ** -0.5` raise on line 60 — and
derived `n_rep`), `__init__` returns an instance — in particular for
every such configuration violating `embed_dim % num_heads == 0`,
evenness of `embed_dim // num_heads`, or
`num_heads % num_kv_heads == 0`. -/
theorem init_never_validates (args : Args) (e d n : ℕ)
    (lq1 lk1 lq2 lk2 : ℕ → ℚ) (ex : ℚ → ℚ)
    (hmp : args.model_parallel_size ≠ 0)
    (hkv : kvHeads args n ≠ 0)
    (hn : n ≠ 0)
    (hhd : e / n / 2 ≠ 0)
    (hrep : n / args.model_parallel_size / kvHeads args n ≠ 0) :
    (init args e d n lq1 lk1 lq2 lk2 ex).isSome = true := by
  unfold init
  simp [hmp, hkv, hn, hhd, hrep]

/-- C1 witness: `num_heads = 3`, `num_kv_heads = 2` violates
`num_heads % num_kv_heads == 0` (and `8 % 3 ≠ 0`, with
`head_dim = 8 // 3 // 2 = 1 ≠ 0`), and construction still succeeds. -/
theorem init_never_validates_witness :
    (init ⟨1, some 2⟩ 8 0 3 zeroVec zeroVec zeroVec zeroVec expQ).isSome
      = true :=
  init_never_validates ⟨1, some 2⟩ 8 0 3 zeroVec zeroVec zeroVec zeroVec expQ
    (by decide) (by decide) (by decide) (by decide) (by decide)

/-- C3: if the two lambda-vector pairs coincide elementwise then the two
gate scalars coincide, `lambda_full` collapses to `lambda_init`, and the
combination step computes `attn1 - lambda_init * attn2` entrywise. -/
theorem lambda_degenerate (s : DiffState) (p : Prims) (a1 a2 : Tensor)
    (hq : ∀ i, i < s.head_dim → s.lambda_q1 i = s.lambda_q2 i)
    (hk : ∀ i, i < s.head_dim → s.lambda_k1 i = s.lambda_k2 i) :
    lambda1 s p.exp = lambda2 s p.exp ∧
    lambdaFull s p.exp = s.lambda_init ∧
    ∀ i, (combineStep s p.exp a1 a2).data i
      = a1.data i - s.lambda_init * a2.data i := by
  have hdot : dotProd s.head_dim s.lambda_q1 s.lambda_k1
      = dotProd s.head_dim s.lambda_q2 s.lambda_k2 := by
    unfold dotProd
    refine Finset.sum_congr rfl fun i hi => ?_
    rw [hq i (Finset.mem_range.mp hi), hk i (Finset.mem_range.mp hi)]
  have h12 : lambda1 s p.exp = lambda2 s p.exp := by
    unfold lambda1 lambda2
    rw [hdot]
  have hfull : lambdaFull s p.exp = s.lambda_init := by
    unfold lambdaFull
    rw [h12]; ring
  refine ⟨h12, hfull, fun i => ?_⟩
  simp [combineStep, Tensor.sub, Tensor.scale, hfull]

/-- C3 witness: at the state `sEq` (equal lambda-vector pairs) with the
trivial primitives, the gates coincide and the combination uses
`lambda_init` at every entry. -/
theorem lambda_degenerate_witness :
    lambda1 sEq prims0.exp = lambda2 sEq prims0.exp ∧
    lambdaFull sEq prims0.exp = sEq.lambda_init ∧
    ∀ i, (combineStep sEq prims0.exp tNums tOne).data i
      = tNums.data i - sEq.lambda_init * tOne.data i :=
  lambda_degenerate sEq prims0 tNums tOne (fun _ _ => rfl) (fun _ _ => rfl)

/-- C7 (corrected), counterexample: at depth 0 the schedule value is
exactly `0.2`, which is not in the open interval `(0.2, 0.8)` — here
instantiated at `expQ`, which has the only property of the library
exponential the depth-0 value depends on, `exp 0 = 1`. -/
theorem lambda_init_fn_zero_not_interior :
    lambda_init_fn expQ 0 = 0.2 ∧ ¬ (0.2 < lambda_init_fn expQ 0) := by
  norm_num [lambda_init_fn, expQ]

/-- C7 (amended): for a strictly monotone, positive exponential with
`exp 0 = 1`, the schedule lies in `[0.2, 0.8)` for every depth, is strictly
increasing, stays below `0.8`, and is strictly above `0.2` from depth 1
on. -/
theorem lambda_init_fn_mono_range (exp : ℚ → ℚ) (hm : StrictMono exp)
    (h0 : exp 0 = 1) (hp : ∀ x, 0 < exp x) (d : ℕ) :
    0.2 ≤ lambda_init_fn exp d ∧ lambda_init_fn exp d < 0.8 ∧
    lambda_init_fn exp d < lambda_init_fn exp (d + 1) ∧
    (1 ≤ d → 0.2 < lambda_init_fn exp d) := by
  have hd0 : (0 : ℚ) ≤ (d : ℚ) := Nat.cast_nonneg d
  have harg : (-0.3 : ℚ) * d ≤ 0 := by nlinarith
  have h1 : exp (-0.3 * d) ≤ 1 := h0 ▸ hm.monotone harg
  have hpos := hp ((-0.3 : ℚ) * d)
  refine ⟨?_, ?_, ?_, ?_⟩
  · unfold lambda_init_fn; nlinarith
  · unfold lambda_init_fn; nlinarith
  · have hlt : (-0.3 : ℚ) * ((d + 1 : ℕ) : ℚ) < -0.3 * d := by
      push_cast; nlinarith
    have := hm hlt
    unfold lambda_init_fn; nlinarith
  · intro hd1
    have hd1' : (1 : ℚ) ≤ (d : ℚ) := by exact_mod_cast hd1
    have hneg : (-0.3 : ℚ) * d < 0 := by nlinarith
    have := h0 ▸ hm hneg
    unfold lambda_init_fn; nlinarith

/-- C7 witness: the amended bounds and strict increase at depth 1 with the
concrete exponential `expQ`. -/
theorem lambda_init_fn_mono_range_witness :
    0.2 ≤ lambda_init_fn expQ 1 ∧ lambda_init_fn expQ 1 < 0.8 ∧
    lambda_init_fn expQ 1 < lambda_init_fn expQ 2 ∧
    (1 ≤ 1 → 0.2 < lambda_init_fn expQ 1) :=
  lambda_init_fn_mono_range expQ expQ_strictMono expQ_zero expQ_pos 1

/-- C8: at depth 0 the schedule is exactly `0.2`, for any exponential with
`exp 0 = 1` (the defining value of the library exponential at the only
point used). -/
theorem lambda_init_fn_at_zero (exp : ℚ → ℚ) (h0 : exp 0 = 1) :
    lambda_init_fn exp 0 = 0.2 := by
  have harg : (-0.3 : ℚ) * ((0 : ℕ) : ℚ) = 0 := by norm_num
  unfold lambda_init_fn
  rw [harg, h0]
  norm_num

/-- C8 witness: the depth-0 value at the concrete exponential `expQ`. -/
theorem lambda_init_fn_at_zero_witness : lambda_init_fn expQ 0 = 0.2 :=
  lambda_init_fn_at_zero expQ expQ_zero

/-- C10: the key/value length is the query length (`src_len = tgt_len`),
the computed `offset` is always zero, and `forward` coincides with the
variant that never computes an offset and uses a single shared sequence
length throughout: the layer does pure self-attention. -/
theorem forward_offset_dead (tgt_len : ℕ) (s : DiffState) (p : Prims)
    (x : Tensor) (rel : Tensor × Tensor) (m : Option Tensor) :
    srcLenOf tgt_len = tgt_len ∧
    offsetOf (srcLenOf tgt_len) tgt_len = 0 ∧
    forward s p x rel m = forwardNoOffset s p x rel m :=
  ⟨rfl, Nat.sub_self tgt_len, rfl⟩

/-- Row-major index decomposition: quotient of a packed index. -/
theorem pack_div (a c n : ℕ) (h : c < n) : (a * n + c) / n = a := by
  have hn : 0 < n := lt_of_le_of_lt (Nat.zero_le c) h
  rw [mul_comm, Nat.mul_add_div hn, Nat.div_eq_of_lt h, add_zero]

/-- Row-major index decomposition: remainder of a packed index. -/
theorem pack_mod (a c n : ℕ) (h : c < n) : (a * n + c) % n = c := by
  rw [mul_comm a n, Nat.mul_add_mod, Nat.mod_eq_of_lt h]

/-- C4: `repeat_kv` on a rank-4 tensor with any `n_rep = k ≥ 1` succeeds;
with `k = 1` it returns its input unchanged; the result has shape
`(bs, kv_heads * k, seq, dim)` and output head `h` carries exactly the
values of input head `h / k` — no numerical transformation. -/
theorem repeat_kv_spec (x : Tensor) (bs g sl hd k : ℕ)
    (hx : x.shape = [bs, g, sl, hd]) (hk : 1 ≤ k) :
    ∃ y, repeat_kv x k = some y ∧ (k = 1 → y = x) ∧
      y.shape = [bs, g * k, sl, hd] ∧
      ∀ b h ss dd, h < g * k → ss < sl → dd < hd →
        y.get4 b h ss dd = x.get4 b (h / k) ss dd := by
  obtain ⟨xsh, xd⟩ := x
  simp only [Tensor.shape] at hx  -- hmm placeholder, adjust below
  subst hx
  by_cases hk1 : k = 1
  · subst hk1
    refine ⟨⟨[bs, g, sl, hd], xd⟩, ?_, fun _ => rfl, ?_, ?_⟩
    · simp [repeat_kv]
    · simp
    · intro b h ss dd _ _ _
      rw [Nat.div_one]
  · simp only [repeat_kv, if_neg hk1]
    refine ⟨_, rfl, fun h => absurd h hk1, rfl, ?_⟩
    intro b h ss dd hh hs hdd
    simp only [Tensor.get4]
    rw [pack_mod _ _ _ hdd, pack_div _ _ _ hdd, pack_mod _ _ _ hs,
      pack_div _ _ _ hs, pack_mod _ _ _ hh, pack_div _ _ _ hh]

/-- C4 witness: a concrete `1 × 2 × 2 × 1` tensor replicated with
`n_rep = 2`. -/
theorem repeat_kv_spec_witness :
    ∃ y, repeat_kv tNums 2 = some y ∧ (2 = 1 → y = tNums) ∧
      y.shape = [1, 2 * 2, 2, 1] ∧
      ∀ b h ss dd, h < 2 * 2 → ss < 2 → dd < 1 →
        y.get4 b h ss dd = tNums.get4 b (h / 2) ss dd :=
  repeat_kv_spec tNums 1 2 2 1 2 rfl (by decide)

/-- C2: the post-normalization rescale multiplies every entry by the
constant `1 - lambda_init` fixed at construction; the factor depends only
on `lambda_init`, not on the learned lambda vectors; and it is not
`1 - lambda_full` — at the state `sNe` the dynamic gate differs from the
static bias and the rescaled entry differs from what a
`(1 - lambda_full)` rescale would give. -/
theorem rescale_uses_static_bias (s s2 : DiffState) (t : Tensor) (i : ℕ) :
    (rescaleStep s t).data i = (1 - s.lambda_init) * t.data i ∧
    (s2.lambda_init = s.lambda_init → rescaleStep s2 t = rescaleStep s t) ∧
    lambdaFull sNe prims0.exp ≠ sNe.lambda_init ∧
    (rescaleStep sNe tOne).data 0
      ≠ (1 - lambdaFull sNe prims0.exp) * tOne.data 0 := by
  refine ⟨rfl, fun h => ?_, ?_, ?_⟩
  · unfold rescaleStep
    rw [h]
  · norm_num [lambdaFull, lambda1, lambda2, dotProd, prims0, sNe, oneVec,
      zeroVec]
  · norm_num [lambdaFull, lambda1, lambda2, dotProd, prims0, sNe, oneVec,
      zeroVec, rescaleStep, Tensor.scale, tOne]

/-- C2 witness: at `sEq` and at `sEq'` (same `lambda_init`, different
lambda vectors) the rescale multiplies by `1 - lambda_init` and is the
same map. -/
theorem rescale_uses_static_bias_witness :
    (rescaleStep sEq tOne).data 0 = (1 - sEq.lambda_init) * tOne.data 0 ∧
    rescaleStep sEq' tOne = rescaleStep sEq tOne :=
  ⟨(rescale_uses_static_bias sEq sEq' tOne 0).1,
   (rescale_uses_static_bias sEq sEq' tOne 0).2.1 rfl⟩

/-- C5: `forward` returns identical outputs for any two `attn_mask`
arguments (the mask is accepted but never consumed), and it only ever
invokes the attention primitive with `causal = True`: two primitive
bundles that agree on causal calls (and on the other collaborators) are
indistinguishable, whatever their non-causal behavior. -/
theorem forward_ignores_mask_causal_only (s : DiffState) (p p2 : Prims)
    (x : Tensor) (rel : Tensor × Tensor) (m1 m2 : Option Tensor)
    (hq : p2.q_proj = p.q_proj) (hk : p2.k_proj = p.k_proj)
    (hv : p2.v_proj = p.v_proj) (ho : p2.out_proj = p.out_proj)
    (hr : p2.rotary = p.rotary) (hs : p2.subln = p.subln)
    (he : p2.exp = p.exp)
    (hfa : ∀ q k v, p2.flash_attn q k v true = p.flash_attn q k v true) :
    forward s p x rel m1 = forward s p2 x rel m2 := by
  obtain ⟨xsh, xd⟩ := x
  rcases xsh with _ | ⟨a, _ | ⟨b, _ | ⟨c, _ | ⟨e, tl⟩⟩⟩⟩ <;>
    simp [forward, hq, hk, hv, ho, hr, hs, he, hfa]

/-- C5 witness: a concrete layer state, input and primitives, comparing a
`None` mask against a concrete mask tensor. -/
theorem forward_ignores_mask_witness :
    forward sEq prims0 tNums (tOne, tOne) none
      = forward sEq prims0 tNums (tOne, tOne) (some tOne) :=
  forward_ignores_mask_causal_only sEq prims0 prims0 tNums (tOne, tOne)
    none (some tOne) rfl rfl rfl rfl rfl rfl rfl (fun _ _ _ => rfl)

/-- C9: under `model_parallel_size = p` (with `p ∣ num_heads`,
`2 * num_heads ∣ embed_dim`, `0 < embed_dim`), construction stores
`head_dim = embed_dim // num_heads // 2` from the *constructor*
`num_heads`, but `num_heads` and `num_kv_heads` divided by `p`; the
flattened width `num_heads * 2 * head_dim` of `forward`'s final reshape is
`embed_dim // p`, and equals `embed_dim` exactly when `p = 1`. -/
theorem init_parallel_width (args : Args) (e d n : ℕ)
    (lq1 lk1 lq2 lk2 : ℕ → ℚ) (ex : ℚ → ℚ) (s : DiffState)
    (hinit : init args e d n lq1 lk1 lq2 lk2 ex = some s)
    (hpn : args.model_parallel_size ∣ n) (hne : 2 * n ∣ e) (he0 : 0 < e) :
    s.head_dim = e / n / 2 ∧
    s.num_heads = n / args.model_parallel_size ∧
    s.num_kv_heads = kvHeads args n ∧
    s.num_heads * 2 * s.head_dim = e / args.model_parallel_size ∧
    (s.num_heads * 2 * s.head_dim = e ↔ args.model_parallel_size = 1) := by
  obtain ⟨h1, h2, _h3, _hd0, _h4, _hemb, hnh, hkvf, _hnr, hhd, _⟩ :=
    init_fields args e d n lq1 lk1 lq2 lk2 ex s hinit
  have hp0 : 0 < args.model_parallel_size := Nat.pos_of_ne_zero h1
  have hn0 : 0 < n := Nat.pos_of_ne_zero h2
  obtain ⟨n2, rfl⟩ := hpn
  obtain ⟨mq, rfl⟩ := hne
  have hpn0 : 0 < args.model_parallel_size * n2 := hn0
  have hdm : 2 * (args.model_parallel_size * n2) * mq
      / (args.model_parallel_size * n2) / 2 = mq := by
    rw [show 2 * (args.model_parallel_size * n2) * mq
        = (args.model_parallel_size * n2) * (2 * mq) by ring,
      Nat.mul_div_cancel_left _ hpn0,
      Nat.mul_div_cancel_left _ (by norm_num : (0:ℕ) < 2)]
  have hnh2 : s.num_heads = n2 := by
    rw [hnh, Nat.mul_div_cancel_left _ hp0]
  have hw : s.num_heads * 2 * s.head_dim
      = 2 * (args.model_parallel_size * n2) * mq
        / args.model_parallel_size := by
    rw [hnh2, hhd, hdm,
      show 2 * (args.model_parallel_size * n2) * mq
        = args.model_parallel_size * (n2 * 2 * mq) by ring,
      Nat.mul_div_cancel_left _ hp0]
  refine ⟨hhd, ?_, hkvf, hw, ?_⟩
  · rw [hnh]
  · rw [hw]
    constructor
    · intro hdiv
      rcases Nat.div_eq_self.mp hdiv with h | h
      · exact absurd h he0.ne'
      · exact h
    · intro hp1
      rw [hp1, Nat.div_one]

/-- Tail of the `forward` pipeline: given the attention-branch shape, the
final reshape succeeds and the output projection returns a
`(batch, seq, embed_dim)` tensor. -/
theorem tail_step (s : DiffState) (p : Prims) (a1 a2 : Tensor)
    (bq sq n mm e : ℕ)
    (hsub : ∀ t, (p.subln t).shape = t.shape)
    (ha1 : a1.shape = [bq, sq, n, 2 * mm])
    (hout : ∀ t, t.shape = [bq, sq, e] → (p.out_proj t).shape = [bq, sq, e])
    (hee : n * 2 * mm = e) :
    ((rescaleStep s (p.subln (combineStep s p.exp a1 a2))).view
        [bq, sq, n * 2 * mm]).bind (fun attn => some (p.out_proj attn))
      = some (p.out_proj ⟨[bq, sq, n * 2 * mm],
          (rescaleStep s (p.subln (combineStep s p.exp a1 a2))).data⟩) ∧
    (p.out_proj ⟨[bq, sq, n * 2 * mm],
        (rescaleStep s (p.subln (combineStep s p.exp a1 a2))).data⟩).shape
      = [bq, sq, e] := by
  have hc : (rescaleStep s (p.subln (combineStep s p.exp a1 a2))).shape
      = [bq, sq, n, 2 * mm] := by
    calc (rescaleStep s (p.subln (combineStep s p.exp a1 a2))).shape
        = (p.subln (combineStep s p.exp a1 a2)).shape := rfl
      _ = (combineStep s p.exp a1 a2).shape := hsub _
      _ = a1.shape := rfl
      _ = [bq, sq, n, 2 * mm] := ha1
  have hcond : ([bq, sq, n * 2 * mm] : List ℕ).prod
      = (rescaleStep s (p.subln (combineStep s p.exp a1 a2))).shape.prod := by
    rw [hc]
    simp only [List.prod_cons, List.prod_nil]
    ring
  constructor
  · rw [view_eq_some _ _ hcond, Option.some_bind]
  · apply hout
    show ([bq, sq, n * 2 * mm] : List ℕ) = [bq, sq, e]
    rw [hee]

/-- Existential form of `tail_step`, matching the goal shape left by the
`forward` pipeline rewriting. -/
theorem tail_step_ex (s : DiffState) (p : Prims) (a1 a2 : Tensor)
    (bq sq n mm e : ℕ)
    (hsub : ∀ t, (p.subln t).shape = t.shape)
    (ha1 : a1.shape = [bq, sq, n, 2 * mm])
    (hout : ∀ t, t.shape = [bq, sq, e] → (p.out_proj t).shape = [bq, sq, e])
    (hee : n * 2 * mm = e) :
    ∃ out, ((rescaleStep s (p.subln (combineStep s p.exp a1 a2))).view
        [bq, sq, n * 2 * mm]).bind (fun attn => some (p.out_proj attn))
      = some out ∧ out.shape = [bq, sq, e] :=
  ⟨_, (tail_step s p a1 a2 bq sq n mm e hsub ha1 hout hee).1,
    (tail_step s p a1 a2 bq sq n mm e hsub ha1 hout hee).2⟩

/-- C6: for every valid single-device configuration obtained from the
constructor (`model_parallel_size = 1`, `2 * num_heads ∣ embed_dim`,
`num_kv_heads` any divisor of `num_heads`), and primitives honoring the
shape contracts of the external collaborators, `forward` on a
`(batch, seq, embed_dim)` input returns a tensor of exactly the input's
shape. -/
theorem forward_output_shape (okv : Option ℕ) (e d n kv bq sq : ℕ)
    (lq1 lk1 lq2 lk2 : ℕ → ℚ) (ex : ℚ → ℚ) (s : DiffState) (p : Prims)
    (x : Tensor) (rel : Tensor × Tensor) (m : Option Tensor)
    (hinit : init ⟨1, okv⟩ e d n lq1 lk1 lq2 lk2 ex = some s)
    (hkv : kvHeads ⟨1, okv⟩ n = kv)
    (hdvd : kv ∣ n)
    (hne : 2 * n ∣ e)
    (hx : x.shape = [bq, sq, e])
    (hq : (p.q_proj x).shape = [bq, sq, e])
    (hk : (p.k_proj x).shape = [bq, sq, e / (n / kv)])
    (hv : (p.v_proj x).shape = [bq, sq, e / (n / kv)])
    (hrot : ∀ t c, (p.rotary t rel c).shape = t.shape)
    (hfa : ∀ qt kt vt c, qt.shape = [bq, sq, n, e / n / 2] →
      kt.shape = [bq, sq, kv, e / n / 2] →
      vt.shape = [bq, sq, kv, 2 * (e / n / 2)] →
      (p.flash_attn qt kt vt c).shape = [bq, sq, n, 2 * (e / n / 2)])
    (hsub : ∀ t, (p.subln t).shape = t.shape)
    (hout : ∀ t, t.shape = [bq, sq, e] →
      (p.out_proj t).shape = [bq, sq, e]) :
    ∃ out, forward s p x rel m = some out ∧ out.shape = x.shape := by
  obtain ⟨_h1, h2, h3, _hd0, _h4, _hemb, hnh, hkvf, _hnr, hhd, _⟩ :=
    init_fields ⟨1, okv⟩ e d n lq1 lk1 lq2 lk2 ex s hinit
  have hn0 : 0 < n := Nat.pos_of_ne_zero h2
  have hkv0 : 0 < kv := Nat.pos_of_ne_zero (hkv ▸ h3)
  obtain ⟨rr, hrr⟩ := hdvd
  obtain ⟨mm, hmm⟩ := hne
  have hrr0 : 0 < rr := Nat.pos_of_ne_zero (by
    rintro rfl
    rw [mul_zero] at hrr
    exact h2 hrr)
  have hnh' : s.num_heads = n := by simpa using hnh
  have hkv' : s.num_kv_heads = kv := hkvf.trans hkv
  have hdm : e / n / 2 = mm := by
    rw [hmm, show 2 * n * mm = n * (2 * mm) by ring,
      Nat.mul_div_cancel_left _ hn0,
      Nat.mul_div_cancel_left _ (by norm_num : (0:ℕ) < 2)]
  have hhd' : s.head_dim = mm := hhd.trans hdm
  have hnr' : n / kv = rr := by
    rw [hrr, Nat.mul_div_cancel_left _ hkv0]
  have hkw : e / (n / kv) = 2 * kv * mm := by
    rw [hnr', hmm, hrr, show 2 * (kv * rr) * mm = rr * (2 * kv * mm) by ring,
      Nat.mul_div_cancel_left _ hrr0]
  rw [hkw] at hk hv
  rw [hdm] at hfa
  obtain ⟨xsh, xd⟩ := x
  simp only [Tensor.shape] at hx
  subst hx
  simp only [forward, srcLenOf]
  simp only [hnh', hkv', hhd']
  have c1 : (p.q_proj ⟨[bq, sq, e], xd⟩).view [bq, sq, 2 * n, mm]
      = some ⟨[bq, sq, 2 * n, mm], (p.q_proj ⟨[bq, sq, e], xd⟩).data⟩ :=
    view_eq_some _ _ (by
      rw [hq]
      simp only [List.prod_cons, List.prod_nil]
      rw [hmm]
      ring)
  simp only [c1, Option.some_bind]
  have c2 : (p.k_proj ⟨[bq, sq, e], xd⟩).view [bq, sq, 2 * kv, mm]
      = some ⟨[bq, sq, 2 * kv, mm], (p.k_proj ⟨[bq, sq, e], xd⟩).data⟩ :=
    view_eq_some _ _ (by
      rw [hk]
      simp only [List.prod_cons, List.prod_nil]
      ring)
  simp only [c2, Option.some_bind]
  have c3 : (p.v_proj ⟨[bq, sq, e], xd⟩).view [bq, sq, kv, 2 * mm]
      = some ⟨[bq, sq, kv, 2 * mm], (p.v_proj ⟨[bq, sq, e], xd⟩).data⟩ :=
    view_eq_some _ _ (by
      rw [hv]
      simp only [List.prod_cons, List.prod_nil]
      ring)
  simp only [c3, Option.some_bind]
  have c4 : (p.rotary ⟨[bq, sq, 2 * n, mm],
        (p.q_proj ⟨[bq, sq, e], xd⟩).data⟩ rel true).view [bq, sq, n, 2, mm]
      = some ⟨[bq, sq, n, 2, mm], (p.rotary ⟨[bq, sq, 2 * n, mm],
          (p.q_proj ⟨[bq, sq, e], xd⟩).data⟩ rel true).data⟩ :=
    view_eq_some _ _ (by
      rw [hrot]
      simp only [List.prod_cons, List.prod_nil]
      ring)
  simp only [c4, Option.some_bind]
  have c5 : (p.rotary ⟨[bq, sq, 2 * kv, mm],
        (p.k_proj ⟨[bq, sq, e], xd⟩).data⟩ rel true).view [bq, sq, kv, 2, mm]
      = some ⟨[bq, sq, kv, 2, mm], (p.rotary ⟨[bq, sq, 2 * kv, mm],
          (p.k_proj ⟨[bq, sq, e], xd⟩).data⟩ rel true).data⟩ :=
    view_eq_some _ _ (by
      rw [hrot]
      simp only [List.prod_cons, List.prod_nil]
      ring)
  simp only [c5, Option.some_bind]
  refine tail_step_ex s p _ _ bq sq n mm e hsub ?_ hout (by rw [hmm]; ring)
  exact hfa _ _ _ true rfl rfl rfl

/-- C6 witness: the minimal valid configuration `sW` (`embed_dim = 2`,
`num_heads = num_kv_heads = 1`) with the shape-honoring primitives
`primsW` on a `1 × 1 × 2` input. -/
theorem forward_output_shape_witness :
    ∃ out, forward sW primsW xW (tOne, tOne) none = some out ∧
      out.shape = xW.shape :=
  forward_output_shape (some 1) 2 0 1 1 1 1 zeroVec zeroVec zeroVec zeroVec
    expQ sW primsW xW (tOne, tOne) none rfl rfl (by decide) (by decide)
    rfl rfl rfl rfl (fun _ _ => rfl)
    (fun _ _ _ _ _ _ _ => rfl) (fun _ => rfl) (fun t h => h)

/-- C9 witness: `embed_dim = 8`, constructor `num_heads = 2`,
`model_parallel_size = 2` produces the state `sMP`, flattened width
`4 = 8 / 2 ≠ 8`. -/
theorem init_parallel_width_witness :
    sMP.head_dim = 8 / 2 / 2 ∧
    sMP.num_heads = 2 / 2 ∧
    sMP.num_kv_heads = kvHeads ⟨2, none⟩ 2 ∧
    sMP.num_heads * 2 * sMP.head_dim = 8 / 2 ∧
    (sMP.num_heads * 2 * sMP.head_dim = 8 ↔ 2 = 1) :=
  init_parallel_width ⟨2, none⟩ 8 0 2 zeroVec zeroVec zeroVec zeroVec
    (fun _ => 1) sMP rfl (by decide) (by decide) (by decide)

end DiffAttn
